import Mathlib

/-!
Shallow embedding of the FCM push-notification server core
(src/server-python/main.py): the token registry (`TokenManager`), the
per-result statistics update, and the broadcast dispatch in `send_push`.

Modelling conventions:
- The Python dict `self.tokens : Dict[str, FCMToken]` is modelled as a
  `List FCMToken` in insertion order; the dict key is the record's `token`
  field, and lookup is `List.find?` on that field.  Reachable states have
  pairwise distinct `token` fields (dict keys are unique); theorems that
  need this assume it pointwise rather than globally.
- ISO timestamp strings (`datetime.now().isoformat()`) are opaque values;
  they are modelled as a `Nat` parameter `now` passed to each operation.
- `raise ValueError` is modelled as `Except.error`; a method that may raise
  returns the (unchanged) manager state alongside the result, since the
  Python code raises before mutating.
- JSON-derived request values (which need not be strings) are modelled by
  `PyValue`, with Python truthiness and the `isinstance(token, str)` check.
- The Firebase gateway (`FCMService.send_message`) is an external
  collaborator: `send_push` takes it as a function from destination token
  to `SendResult`, and additionally returns the list of tokens it was
  called on, so that the number of gateway calls is observable.
-/

/-- Embeds the `FCMToken` dataclass of main.py (lines 26-37). -/
structure FCMToken where
  token : String
  registered_at : Nat
  last_active : Nat
  successful_sends : Nat
  failed_sends : Nat
  is_active : Bool
deriving Repr, DecidableEq

/-- A JSON-derived Python value, as far as `register_token`
inspects it (`not token`, `isinstance(token, str)`). -/
inductive PyValue where
  | str (s : String)
  | num (n : Int)
  | boolV (b : Bool)
  | nil
deriving Repr, DecidableEq

/-- Python truthiness for `PyValue` (`not token` is `!v.truthy`). -/
def PyValue.truthy : PyValue → Bool
  | .str s => s != ""
  | .num n => n != 0
  | .boolV b => b
  | .nil => false

/-- Embeds `isinstance(token, str)`. -/
def PyValue.isStr : PyValue → Bool
  | .str _ => true
  | _ => false

/-- The underlying string of a string `PyValue` (only used under `isStr`). -/
def PyValue.asString : PyValue → String
  | .str s => s
  | _ => ""

/-- Embeds the state of `TokenManager.__init__` (main.py lines 123-126):
the token map in insertion order plus the configured `MAX_TOKENS`. -/
structure TokenManager where
  tokens : List FCMToken
  max_tokens : Nat
deriving Repr, DecidableEq

/-- Dict lookup `self.tokens[token]` / membership `token in self.tokens`:
the first (in reachable states, only) record keyed by `t`. -/
def findToken (tokens : List FCMToken) (t : String) : Option FCMToken :=
  tokens.find? (fun r => r.token == t)

/-- Return value of `register_token`: the
`{'is_new': ..., 'token_count': len(self.tokens)}` dict. -/
structure RegResult where
  is_new : Bool
  token_count : Nat
deriving Repr, DecidableEq

/-- Embeds `TokenManager._cleanup_inactive_tokens` (main.py lines 178-188):
collect every inactive key and delete it, i.e. keep exactly the active
records, preserving order. -/
def cleanup_inactive_tokens (tokens : List FCMToken) : List FCMToken :=
  tokens.filter (fun r => r.is_active)

/-- Embeds `TokenManager.register_token` (main.py lines 128-153).
`raise ValueError("Invalid token provided")` when `not token or not
isinstance(token, str)`; update path when the key exists; otherwise a
capacity check (`len >= max_tokens` triggers `_cleanup_inactive_tokens`)
followed by an unconditional insert of a fresh record. -/
def TokenManager.register_token (m : TokenManager) (v : PyValue) (now : Nat) :
    Except String RegResult × TokenManager :=
  if !v.truthy || !v.isStr then
    (.error "Invalid token provided", m)
  else
    let token := v.asString
    match findToken m.tokens token with
    | some _ =>
      let tokens1 := m.tokens.map (fun r =>
        if r.token == token then { r with last_active := now, is_active := true } else r)
      (.ok { is_new := false, token_count := tokens1.length }, { m with tokens := tokens1 })
    | none =>
      let base := if m.tokens.length ≥ m.max_tokens then cleanup_inactive_tokens m.tokens
                  else m.tokens
      let tokens1 := base ++ [{ token := token, registered_at := now, last_active := now,
                                successful_sends := 0, failed_sends := 0, is_active := true }]
      (.ok { is_new := true, token_count := tokens1.length }, { m with tokens := tokens1 })

/-- Embeds `TokenManager.get_active_tokens` (main.py lines 155-157). -/
def TokenManager.get_active_tokens (m : TokenManager) : List String :=
  (m.tokens.filter (fun r => r.is_active)).map (fun r => r.token)

/-- One delivery outcome dict as produced by `FCMService.send_message` and
consumed by `update_token_stats`: `result.get('success')`,
`result.get('token')`, `result.get('error_code', '')` (the code is `''`
when absent, as on success results). -/
structure SendResult where
  success : Bool
  token : String
  error_code : String
deriving Repr, DecidableEq

/-- One iteration of the loop in `TokenManager.update_token_stats`
(main.py lines 161-176): skip outcomes whose token is not registered;
on success bump `successful_sends` and refresh `last_active`; on failure
bump `failed_sends` and deactivate exactly when the error code is
`UNREGISTERED` or `INVALID_ARGUMENT`. -/
def update_token_step (tokens : List FCMToken) (result : SendResult) (now : Nat) :
    List FCMToken :=
  if (findToken tokens result.token).isSome then
    tokens.map (fun t =>
      if t.token == result.token then
        if result.success then
          { t with successful_sends := t.successful_sends + 1, last_active := now }
        else
          { t with failed_sends := t.failed_sends + 1,
                   is_active := if result.error_code == "UNREGISTERED"
                                   || result.error_code == "INVALID_ARGUMENT"
                                then false else t.is_active }
      else t)
  else tokens

/-- Embeds `TokenManager.update_token_stats` (main.py lines 159-176):
the loop over `results`, each iteration as `update_token_step`. -/
def TokenManager.update_token_stats (m : TokenManager) (results : List SendResult)
    (now : Nat) : TokenManager :=
  { m with tokens := results.foldl (fun acc r => update_token_step acc r now) m.tokens }

/-- Return value of `TokenManager.get_stats` (main.py lines 190-202). -/
structure Stats where
  total_tokens : Nat
  active_tokens : Nat
  inactive_tokens : Nat
  total_successful_sends : Nat
  total_failed_sends : Nat
deriving Repr, DecidableEq

/-- Embeds `TokenManager.get_stats` (main.py lines 190-202): pure
aggregation over the current records. -/
def TokenManager.get_stats (m : TokenManager) : Stats :=
  let active_count := m.tokens.countP (fun t => t.is_active)
  let total_successful := (m.tokens.map (fun t => t.successful_sends)).sum
  let total_failed := (m.tokens.map (fun t => t.failed_sends)).sum
  { total_tokens := m.tokens.length,
    active_tokens := active_count,
    inactive_tokens := m.tokens.length - active_count,
    total_successful_sends := total_successful,
    total_failed_sends := total_failed }

/-- Embeds `TokenManager.remove_token` (main.py lines 203-211): delete the
key if present and report whether a removal occurred. -/
def TokenManager.remove_token (m : TokenManager) (t : String) : Bool × TokenManager :=
  if (findToken m.tokens t).isSome then
    (true, { m with tokens := m.tokens.filter (fun r => !(r.token == t)) })
  else
    (false, m)

/-- Report assembled by `send_push` (main.py lines 399-414): the partition
of the outcome list into successes and failures with their counts. -/
structure BroadcastReport where
  sent : Nat
  failed : Nat
  successes : List SendResult
  failures : List SendResult
deriving Repr, DecidableEq

/-- Embeds the broadcast core of the `/send` route `send_push`
(main.py lines 378-414): fetch the active tokens; with none, fail with
the 400 error `"No active tokens to send to"`; otherwise call the gateway
once per active token, in order, and partition the outcomes.  The call
`token_manager.update_token_stats(results)` at line 397 is commented out
in the source, so the registry is returned unchanged.  The third component
is the list of destination tokens the gateway was called on. -/
def TokenManager.send_push (m : TokenManager) (gateway : String → SendResult) :
    Except String BroadcastReport × TokenManager × List String :=
  let active_tokens := m.get_active_tokens
  if active_tokens.isEmpty then
    (.error "No active tokens to send to", m, [])
  else
    let results := active_tokens.map gateway
    let successes := results.filter (fun r => r.success)
    let failures := results.filter (fun r => !r.success)
    (.ok { sent := successes.length, failed := failures.length,
           successes := successes, failures := failures }, m, active_tokens)

/-- The registry operations a client can drive the `TokenManager` through
(the methods reachable from the HTTP routes). -/
inductive Op where
  | register (v : PyValue) (now : Nat)
  | unregister (t : String)
  | recordResults (rs : List SendResult) (now : Nat)
  | broadcast (gateway : String → SendResult)
  | listActive
  | stats

/-- State transition of one operation on the manager.  `get_active_tokens`,
`get_stats` and `send_push` do not assign to `self.tokens`, so their state
effect is the identity (for `send_push` this is exactly the second
component it returns). -/
def stepOp (m : TokenManager) (op : Op) : TokenManager :=
  match op with
  | .register v now => (m.register_token v now).2
  | .unregister t => (m.remove_token t).2
  | .recordResults rs now => m.update_token_stats rs now
  | .broadcast gateway => (m.send_push gateway).2.1
  | .listActive => m
  | .stats => m

/-- Does the operation register exactly the string identifier `t`? -/
def Op.registersId (op : Op) (t : String) : Bool :=
  match op with
  | .register (.str s) _ => s == t
  | _ => false

/-! ### Helper lemmas about `findToken` -/

theorem findToken_map_of_token_eq (l : List FCMToken) (f : FCMToken → FCMToken)
    (hf : ∀ x, (f x).token = x.token) (t : String) :
    findToken (l.map f) t = (findToken l t).map f := by
  unfold findToken
  rw [List.find?_map]
  have h : ((fun r : FCMToken => r.token == t) ∘ f) = fun r : FCMToken => r.token == t := by
    funext x
    simp [Function.comp, hf]
  rw [h]

theorem findToken_filter_none (l : List FCMToken) (p : FCMToken → Bool) (t : String)
    (h : findToken l t = none) : findToken (l.filter p) t = none := by
  unfold findToken at h ⊢
  rw [List.find?_eq_none] at h ⊢
  intro x hx
  exact h x (List.mem_filter.mp hx).1

theorem findToken_append (l1 l2 : List FCMToken) (t : String) :
    findToken (l1 ++ l2) t = (findToken l1 t).or (findToken l2 t) := by
  unfold findToken
  exact List.find?_append

theorem findToken_some_token (l : List FCMToken) (t : String) (r : FCMToken)
    (h : findToken l t = some r) : r.token = t := by
  have := List.find?_some h
  simpa using this

/-- The state component returned by `send_push` is always the input manager:
the only mutation site, `update_token_stats(results)` at main.py line 397,
is commented out. -/
theorem send_push_state_eq (m : TokenManager) (gateway : String → SendResult) :
    (m.send_push gateway).2.1 = m := by
  unfold TokenManager.send_push
  by_cases h : m.get_active_tokens.isEmpty <;> simp [h]

/-! ### Claim theorems -/

/-- C2: for every registry state and every gateway, the broadcast operation
(`send_push`) leaves every registry record unchanged: the manager state it
returns is exactly the input state, so no record's counters, `last_active`
or `is_active` are modified (the outcome feedback call is disabled in the
source). -/
theorem broadcast_leaves_registry_unchanged (m : TokenManager)
    (gateway : String → SendResult) :
    (m.send_push gateway).2.1 = m :=
  send_push_state_eq m gateway

/-- C4: on a registry whose active set is empty, `send_push` fails with the
`NoRecipients` error (the 400 response "No active tokens to send to"),
performs zero Delivery Gateway calls (the empty call list), and leaves the
registry state unchanged. -/
theorem broadcast_empty_active_set (m : TokenManager)
    (gateway : String → SendResult)
    (h : m.get_active_tokens = []) :
    m.send_push gateway = (.error "No active tokens to send to", m, []) := by
  unfold TokenManager.send_push
  simp [h]

theorem broadcast_empty_active_set_witness :
    TokenManager.send_push
        { tokens := [{ token := "tok-A", registered_at := 0, last_active := 0,
                       successful_sends := 0, failed_sends := 0, is_active := false }],
          max_tokens := 10 }
        (fun t => { success := true, token := t, error_code := "" })
      = (.error "No active tokens to send to",
         { tokens := [{ token := "tok-A", registered_at := 0, last_active := 0,
                        successful_sends := 0, failed_sends := 0, is_active := false }],
           max_tokens := 10 }, []) :=
  broadcast_empty_active_set _ _ (by decide)

/-- C9: `get_stats` reports the total as the number of stored records, the
active count as the number of records with `is_active` true, the inactive
count as total minus active (so total = active + inactive), and the success
and failure totals as the sums of the per-record counters; the `stats`
operation does not modify the registry. -/
theorem get_stats_correct (m : TokenManager) :
    (m.get_stats).total_tokens = m.tokens.length ∧
    (m.get_stats).active_tokens = m.tokens.countP (fun t => t.is_active) ∧
    (m.get_stats).inactive_tokens
      = (m.get_stats).total_tokens - (m.get_stats).active_tokens ∧
    (m.get_stats).total_tokens
      = (m.get_stats).active_tokens + (m.get_stats).inactive_tokens ∧
    (m.get_stats).total_successful_sends
      = (m.tokens.map (fun t => t.successful_sends)).sum ∧
    (m.get_stats).total_failed_sends
      = (m.tokens.map (fun t => t.failed_sends)).sum ∧
    stepOp m Op.stats = m := by
  refine ⟨rfl, rfl, rfl, ?_, rfl, rfl, rfl⟩
  have h := List.countP_le_length (fun t : FCMToken => t.is_active) (l := m.tokens)
  simp only [TokenManager.get_stats]
  omega

/-! ### Shape lemmas for `register_token` -/

/-- Registering a fresh non-empty identifier appends a fresh record to a base
list: the registry itself when below capacity, the cleaned-up (active-only)
registry at or above capacity. -/
theorem register_token_fresh_shape (m : TokenManager) (t : String) (now : Nat)
    (hne : t ≠ "") (habs : findToken m.tokens t = none) :
    ∃ base : List FCMToken,
      findToken base t = none ∧
      (∀ x ∈ base, x ∈ m.tokens) ∧
      base = (if m.tokens.length ≥ m.max_tokens then cleanup_inactive_tokens m.tokens
              else m.tokens) ∧
      m.register_token (.str t) now =
        (.ok { is_new := true, token_count := base.length + 1 },
         { m with tokens := base ++ [(⟨t, now, now, 0, 0, true⟩ : FCMToken)] }) := by
  refine ⟨if m.tokens.length ≥ m.max_tokens then cleanup_inactive_tokens m.tokens
          else m.tokens, ?_, ?_, rfl, ?_⟩
  · by_cases h : m.tokens.length ≥ m.max_tokens
    · simpa [h, cleanup_inactive_tokens] using
        findToken_filter_none m.tokens (fun r => r.is_active) t habs
    · simpa [h] using habs
  · intro x hx
    by_cases h : m.tokens.length ≥ m.max_tokens
    · simp [h, cleanup_inactive_tokens] at hx
      exact hx.1
    · simpa [h] using hx
  · simp only [TokenManager.register_token, PyValue.truthy, PyValue.isStr, PyValue.asString,
      habs]
    simp [hne]

/-- Registering an already-present identifier rewrites exactly that record
(refreshing `last_active` and `is_active`) and reports the unchanged count. -/
theorem register_token_update_shape (m : TokenManager) (t : String) (now : Nat)
    (r : FCMToken) (hne : t ≠ "") (hfind : findToken m.tokens t = some r) :
    m.register_token (.str t) now =
      (.ok { is_new := false, token_count := m.tokens.length },
       { m with tokens := m.tokens.map (fun x =>
           if x.token == t then { x with last_active := now, is_active := true } else x) }) := by
  simp only [TokenManager.register_token, PyValue.truthy, PyValue.isStr, PyValue.asString,
    hfind]
  simp [hne]

theorem findToken_append_singleton (base : List FCMToken) (r : FCMToken) (t : String)
    (hbase : findToken base t = none) (hr : r.token = t) :
    findToken (base ++ [r]) t = some r := by
  rw [findToken_append, hbase, Option.none_or]
  unfold findToken
  rw [List.find?_cons_of_pos]
  simp [hr]

theorem token_update_preserves_token (t : String) (now : Nat) :
    ∀ x : FCMToken,
      ((if x.token == t then { x with last_active := now, is_active := true } else x)).token
        = x.token := by
  intro x
  by_cases h : x.token == t <;> simp [h]

theorem step_map_preserves_token (rr : SendResult) (now : Nat) :
    ∀ x : FCMToken,
      ((fun t : FCMToken =>
        if t.token == rr.token then
          if rr.success then
            { t with successful_sends := t.successful_sends + 1, last_active := now }
          else
            { t with failed_sends := t.failed_sends + 1,
                     is_active := if rr.error_code == "UNREGISTERED"
                                     || rr.error_code == "INVALID_ARGUMENT"
                                  then false else t.is_active }
        else t) x).token = x.token := by
  intro x
  by_cases h : x.token == rr.token <;> cases hs : rr.success <;> simp [h, hs]

/-! ### Preservation of inactivity -/

theorem update_token_step_preserves_inactive (tokens : List FCMToken) (rr : SendResult)
    (now : Nat) (t : String)
    (h : ∀ r ∈ tokens, r.token = t → r.is_active = false) :
    ∀ r ∈ update_token_step tokens rr now, r.token = t → r.is_active = false := by
  intro r hr hrt
  unfold update_token_step at hr
  by_cases hs : (findToken tokens rr.token).isSome = true
  · rw [if_pos hs] at hr
    obtain ⟨x, hx, hfx⟩ := List.mem_map.mp hr
    have hxt : x.token = t := by
      rw [← hrt, ← hfx]
      exact (step_map_preserves_token rr now x).symm
    have hxa : x.is_active = false := h x hx hxt
    by_cases hxr : (x.token == rr.token) = true
    · cases hsucc : rr.success
      · rw [← hfx]
        simp [hxr, hsucc, hxa]
      · rw [← hfx]
        simp [hxr, hsucc, hxa]
    · rw [← hfx]
      simp only [hxr]
      simp at hxr
      simp [hxr, hxa]
  · rw [if_neg hs] at hr
    exact h r hr hrt

theorem foldl_update_preserves_inactive (rs : List SendResult) (now : Nat) (t : String) :
    ∀ tokens : List FCMToken,
      (∀ r ∈ tokens, r.token = t → r.is_active = false) →
      ∀ r ∈ rs.foldl (fun acc rr => update_token_step acc rr now) tokens,
        r.token = t → r.is_active = false := by
  induction rs with
  | nil =>
    intro tokens h
    simpa using h
  | cons rr rs ih =>
    intro tokens h
    rw [List.foldl_cons]
    exact ih _ (update_token_step_preserves_inactive tokens rr now t h)

/-- No single registry operation other than a register of the identifier
itself turns an inactive record for that identifier active. -/
theorem stepOp_preserves_inactive (m : TokenManager) (t : String) (op : Op)
    (hinact : ∀ r ∈ m.tokens, r.token = t → r.is_active = false)
    (hop : op.registersId t = false) :
    ∀ r ∈ (stepOp m op).tokens, r.token = t → r.is_active = false := by
  cases op with
  | register v now =>
    cases v with
    | str s =>
      have hst : s ≠ t := by simpa [Op.registersId] using hop
      by_cases hse : s = ""
      · subst hse
        have hm : (stepOp m (Op.register (.str "") now)).tokens = m.tokens := by
          simp [stepOp, TokenManager.register_token, PyValue.truthy, PyValue.isStr]
        rw [hm]
        exact hinact
      · cases hf : findToken m.tokens s with
        | some x =>
          have heq := register_token_update_shape m s now x hse hf
          intro r hr hrt
          simp only [stepOp] at hr
          rw [heq] at hr
          obtain ⟨y, hy, hfy⟩ := List.mem_map.mp hr
          have hyt : y.token = t := by
            rw [← hrt, ← hfy]
            exact (token_update_preserves_token s now y).symm
          have hys : ¬ (y.token == s) = true := by
            simp [hyt]
            exact fun hc => absurd hc.symm hst
          rw [← hfy, if_neg hys]
          exact hinact y hy hyt
        | none =>
          obtain ⟨base, _, hsub, _, heq⟩ := register_token_fresh_shape m s now hse hf
          intro r hr hrt
          simp only [stepOp] at hr
          rw [heq] at hr
          rcases List.mem_append.mp hr with h1 | h2
          · exact hinact r (hsub r h1) hrt
          · simp at h2
            rw [h2] at hrt
            simp at hrt
            exact absurd hrt hst
    | num n =>
      intro r hr hrt
      have hm : (stepOp m (Op.register (.num n) now)).tokens = m.tokens := by
        simp [stepOp, TokenManager.register_token, PyValue.truthy, PyValue.isStr]
      rw [hm] at hr
      exact hinact r hr hrt
    | boolV b =>
      intro r hr hrt
      have hm : (stepOp m (Op.register (.boolV b) now)).tokens = m.tokens := by
        cases b <;> simp [stepOp, TokenManager.register_token, PyValue.truthy, PyValue.isStr]
      rw [hm] at hr
      exact hinact r hr hrt
    | nil =>
      intro r hr hrt
      have hm : (stepOp m (Op.register .nil now)).tokens = m.tokens := by
        simp [stepOp, TokenManager.register_token, PyValue.truthy, PyValue.isStr]
      rw [hm] at hr
      exact hinact r hr hrt
  | unregister u =>
    intro r hr hrt
    simp only [stepOp, TokenManager.remove_token] at hr
    by_cases hs : (findToken m.tokens u).isSome = true
    · rw [if_pos hs] at hr
      exact hinact r (List.mem_filter.mp hr).1 hrt
    · rw [if_neg hs] at hr
      exact hinact r hr hrt
  | recordResults rs now =>
    intro r hr hrt
    simp only [stepOp, TokenManager.update_token_stats] at hr
    exact foldl_update_preserves_inactive rs now t m.tokens hinact r hr hrt
  | broadcast gw =>
    intro r hr hrt
    simp only [stepOp] at hr
    rw [send_push_state_eq] at hr
    exact hinact r hr hrt
  | listActive =>
    exact hinact
  | stats =>
    exact hinact

/-- Claim C8: `register_token` fails with `InvalidInput` (the raised
`ValueError`) exactly when the supplied identifier is empty or not a string
value, and in that case the registry state is completely unchanged. -/
theorem register_token_invalid_input (m : TokenManager) (v : PyValue) (now : Nat) :
    ((m.register_token v now).1 = .error "Invalid token provided"
        ↔ (v.isStr = false ∨ v = .str "")) ∧
    ((v.isStr = false ∨ v = .str "") → (m.register_token v now).2 = m) := by
  cases v with
  | str s =>
    by_cases h : s = ""
    · subst h
      constructor
      · simp [TokenManager.register_token, PyValue.truthy, PyValue.isStr]
      · intro
        simp [TokenManager.register_token, PyValue.truthy, PyValue.isStr]
    · constructor
      · simp only [TokenManager.register_token, PyValue.truthy, PyValue.isStr, PyValue.asString]
        cases hf : findToken m.tokens s <;> simp [hf, h]
      · intro hc
        rcases hc with hc | hc
        · simp [PyValue.isStr] at hc
        · simp at hc
          exact absurd hc h
  | num n =>
    refine ⟨?_, fun _ => ?_⟩ <;>
      simp [TokenManager.register_token, PyValue.truthy, PyValue.isStr]
  | boolV b =>
    refine ⟨?_, fun _ => ?_⟩ <;>
      simp [TokenManager.register_token, PyValue.truthy, PyValue.isStr]
  | nil =>
    refine ⟨?_, fun _ => ?_⟩ <;>
      simp [TokenManager.register_token, PyValue.truthy, PyValue.isStr]

/-- Claim C5: registering a fresh non-empty identifier twice in succession
yields `is_new = true` then `is_new = false`; the reported count after the
second call equals the count after the first, the second call inserts no
duplicate (same number of records), and the resulting record keeps its
original `registered_at` and zero counters while `last_active` is refreshed
to the second timestamp and `is_active` is true. -/
theorem register_twice_fresh (m : TokenManager) (t : String) (now1 now2 : Nat)
    (hne : t ≠ "") (habs : findToken m.tokens t = none) :
    ((m.register_token (.str t) now1).1
        = .ok { is_new := true,
                token_count := (m.register_token (.str t) now1).2.tokens.length }) ∧
    (((m.register_token (.str t) now1).2.register_token (.str t) now2).1
        = .ok { is_new := false,
                token_count := (m.register_token (.str t) now1).2.tokens.length }) ∧
    (((m.register_token (.str t) now1).2.register_token (.str t) now2)).2.tokens.length
        = (m.register_token (.str t) now1).2.tokens.length ∧
    findToken (((m.register_token (.str t) now1).2.register_token (.str t) now2)).2.tokens t
        = some { token := t, registered_at := now1, last_active := now2,
                 successful_sends := 0, failed_sends := 0, is_active := true } := by
  obtain ⟨base, hbnone, _, _, heq⟩ := register_token_fresh_shape m t now1 hne habs
  have hm1 : (m.register_token (.str t) now1).2.tokens
      = base ++ [(⟨t, now1, now1, 0, 0, true⟩ : FCMToken)] := by
    rw [heq]
  have hfind1 : findToken (m.register_token (.str t) now1).2.tokens t
      = some (⟨t, now1, now1, 0, 0, true⟩ : FCMToken) := by
    rw [hm1]
    exact findToken_append_singleton base _ t hbnone rfl
  obtain heq2 := register_token_update_shape (m.register_token (.str t) now1).2 t now2
    _ hne hfind1
  constructor
  · rw [heq]
    simp
  constructor
  · rw [heq2]
  constructor
  · rw [heq2]
    simp
  · rw [heq2]
    have := findToken_map_of_token_eq (m.register_token (.str t) now1).2.tokens
      (fun x => if x.token == t then { x with last_active := now2, is_active := true } else x)
      (token_update_preserves_token t now2) t
    simp only [this, hfind1]
    simp

theorem register_twice_fresh_witness :
    (((TokenManager.mk [] 10).register_token (.str "tok-A") 0).2.register_token
        (.str "tok-A") 1).1
      = .ok { is_new := false,
              token_count :=
                ((TokenManager.mk [] 10).register_token (.str "tok-A") 0).2.tokens.length } :=
  (register_twice_fresh (TokenManager.mk [] 10) "tok-A" 0 1 (by decide) (by decide)).2.1

/-- Claim C10: at or above the configured maximum size, registering an
identifier that is already present never triggers eviction: the result is
the update path (`is_new = false`, unchanged count and length), the record
is updated in place keeping `registered_at`, `successful_sends` and
`failed_sends`, and every record with a different identifier (inactive ones
included) is still present unchanged. -/
theorem register_existing_no_eviction (m : TokenManager) (t : String) (now : Nat)
    (r : FCMToken)
    (hcap : m.tokens.length ≥ m.max_tokens)
    (hne : t ≠ "")
    (hfind : findToken m.tokens t = some r) :
    (m.register_token (.str t) now).1
      = .ok { is_new := false, token_count := m.tokens.length } ∧
    (m.register_token (.str t) now).2.tokens.length = m.tokens.length ∧
    (m.register_token (.str t) now).2.max_tokens = m.max_tokens ∧
    findToken (m.register_token (.str t) now).2.tokens t
      = some { r with last_active := now, is_active := true } ∧
    (∀ x ∈ m.tokens, x.token ≠ t → x ∈ (m.register_token (.str t) now).2.tokens) := by
  have heq := register_token_update_shape m t now r hne hfind
  have hrt : r.token = t := findToken_some_token _ _ _ hfind
  refine ⟨by rw [heq], by rw [heq]; simp, by rw [heq], ?_, ?_⟩
  · rw [heq]
    have hmap := findToken_map_of_token_eq m.tokens
      (fun x => if x.token == t then { x with last_active := now, is_active := true } else x)
      (token_update_preserves_token t now) t
    simp only [hmap, hfind]
    simp [hrt]
  · intro x hx hxt
    rw [heq]
    have hfx : (if x.token == t then { x with last_active := now, is_active := true } else x)
        = x := by
      simp [hxt]
    exact hfx ▸ List.mem_map_of_mem _ hx

theorem register_existing_no_eviction_witness :
    ((TokenManager.mk [FCMToken.mk "tok-A" 5 6 2 3 false] 1).register_token (.str "tok-A") 9).1
      = .ok { is_new := false, token_count := 1 } :=
  (register_existing_no_eviction (TokenManager.mk [FCMToken.mk "tok-A" 5 6 2 3 false] 1)
    "tok-A" 9 (FCMToken.mk "tok-A" 5 6 2 3 false) (by decide) (by decide) (by decide)).1

/-- Claim C3: on a registry of size equal to the configured maximum in which
every stored record is inactive, registering a fresh non-empty identifier
evicts all existing records and inserts the new one: the registry is left
with exactly one record, the new identifier, active, with zero counters. -/
theorem register_full_all_inactive (m : TokenManager) (t : String) (now : Nat)
    (hfull : m.tokens.length = m.max_tokens)
    (hinact : ∀ r ∈ m.tokens, r.is_active = false)
    (hne : t ≠ "")
    (habs : findToken m.tokens t = none) :
    m.register_token (.str t) now =
      (.ok { is_new := true, token_count := 1 },
       { m with tokens := [(⟨t, now, now, 0, 0, true⟩ : FCMToken)] }) := by
  obtain ⟨base, _, _, hbase, heq⟩ := register_token_fresh_shape m t now hne habs
  have hb : base = [] := by
    rw [hbase, if_pos (le_of_eq hfull.symm)]
    unfold cleanup_inactive_tokens
    rw [List.filter_eq_nil_iff]
    intro a ha
    simp [hinact a ha]
  rw [heq, hb]
  simp

theorem register_full_all_inactive_witness :
    (TokenManager.mk [FCMToken.mk "old" 0 0 0 0 false] 1).register_token (.str "tok-A") 2 =
      (.ok { is_new := true, token_count := 1 },
       TokenManager.mk [FCMToken.mk "tok-A" 2 2 0 0 true] 1) :=
  register_full_all_inactive (TokenManager.mk [FCMToken.mk "old" 0 0 0 0 false] 1) "tok-A" 2
    (by decide) (by decide) (by decide) (by decide)

/-- Claim C1 as frozen is refuted at a concrete input: with `max_tokens = 1`
and a single active record, registering a fresh identifier evicts nothing
(no record is inactive) and inserts anyway, leaving 2 records, which exceeds
the configured maximum.  The registry size is therefore not kept within the
bound when every existing record is active. -/
theorem register_capacity_exceeds_max :
    ((TokenManager.mk [FCMToken.mk "a" 0 0 0 0 true] 1).register_token (.str "b") 1).2.tokens.length
      > (TokenManager.mk [FCMToken.mk "a" 0 0 0 0 true] 1).max_tokens := by
  decide

/-- Claim C1 (amended): when `register_token` inserts a fresh identifier into
a registry at or above the configured maximum, all currently inactive
records are evicted before the insert; the resulting size is the number of
active records plus one, which is within the bound whenever fewer than
`max_tokens` records were active, but exceeds the bound when every existing
record is active. -/
theorem register_at_capacity_evicts_inactive (m : TokenManager) (t : String) (now : Nat)
    (hcap : m.tokens.length ≥ m.max_tokens)
    (hne : t ≠ "")
    (habs : findToken m.tokens t = none) :
    (m.register_token (.str t) now).2.tokens
      = cleanup_inactive_tokens m.tokens ++ [(⟨t, now, now, 0, 0, true⟩ : FCMToken)] ∧
    (m.register_token (.str t) now).2.tokens.length
      = m.tokens.countP (fun r => r.is_active) + 1 ∧
    (m.tokens.countP (fun r => r.is_active) < m.max_tokens →
      (m.register_token (.str t) now).2.tokens.length ≤ m.max_tokens) := by
  obtain ⟨base, _, _, hbase, heq⟩ := register_token_fresh_shape m t now hne habs
  have hb : base = cleanup_inactive_tokens m.tokens := by rw [hbase, if_pos hcap]
  have hlen : (m.register_token (.str t) now).2.tokens.length
      = m.tokens.countP (fun r => r.is_active) + 1 := by
    rw [heq, hb]
    simp [cleanup_inactive_tokens, List.countP_eq_length_filter]
  refine ⟨by rw [heq, hb], hlen, ?_⟩
  intro hlt
  rw [hlen]
  omega

theorem register_at_capacity_evicts_inactive_witness :
    (TokenManager.register_token
        (TokenManager.mk [FCMToken.mk "a" 0 0 0 0 false, FCMToken.mk "b" 0 0 0 0 true] 2)
        (.str "c") 3).2.tokens.length ≤ 2 :=
  (register_at_capacity_evicts_inactive
      (TokenManager.mk [FCMToken.mk "a" 0 0 0 0 false, FCMToken.mk "b" 0 0 0 0 true] 2)
      "c" 3 (by decide) (by decide) (by decide)).2.2 (by decide)

/-- Claim C6: `update_token_stats` processes the outcome sequence one
outcome at a time; for a single outcome, an identifier absent from the
registry leaves the state unchanged, a success increments that record's
`successful_sends` by one and refreshes `last_active`, a failure increments
`failed_sends` by one and sets `is_active` to false exactly when the error
code is `UNREGISTERED` or `INVALID_ARGUMENT` (other codes leave `is_active`
unchanged); records with other identifiers are untouched. -/
theorem update_token_stats_cases (m : TokenManager) (now : Nat) :
    (∀ r rs, m.update_token_stats (r :: rs) now
        = TokenManager.update_token_stats
            { m with tokens := update_token_step m.tokens r now } rs now) ∧
    (m.update_token_stats [] now = m) ∧
    (∀ r : SendResult, findToken m.tokens r.token = none →
        update_token_step m.tokens r now = m.tokens) ∧
    (∀ r : SendResult, ∀ x, findToken m.tokens r.token = some x →
      (r.success = true →
        findToken (update_token_step m.tokens r now) r.token
          = some { x with successful_sends := x.successful_sends + 1, last_active := now }) ∧
      (r.success = false →
        findToken (update_token_step m.tokens r now) r.token
          = some { x with failed_sends := x.failed_sends + 1,
                          is_active := (if r.error_code = "UNREGISTERED"
                                           ∨ r.error_code = "INVALID_ARGUMENT"
                                        then false else x.is_active) }) ∧
      (∀ y ∈ m.tokens, y.token ≠ r.token → y ∈ update_token_step m.tokens r now)) := by
  refine ⟨fun r rs => rfl, rfl, ?_, ?_⟩
  · intro r h
    simp [update_token_step, h]
  · intro r x hx
    have hxt : x.token = r.token := findToken_some_token _ _ _ hx
    have hsome : (findToken m.tokens r.token).isSome = true := by rw [hx]; rfl
    have hmap := findToken_map_of_token_eq m.tokens _ (step_map_preserves_token r now) r.token
    refine ⟨?_, ?_, ?_⟩
    · intro hsucc
      unfold update_token_step
      rw [if_pos hsome, hmap, hx]
      simp [hxt, hsucc]
    · intro hfail
      unfold update_token_step
      rw [if_pos hsome, hmap, hx]
      by_cases hec : r.error_code = "UNREGISTERED" ∨ r.error_code = "INVALID_ARGUMENT"
      · rcases hec with hec | hec <;> simp [hxt, hfail, hec]
      · push_neg at hec
        simp [hxt, hfail, hec.1, hec.2]
    · intro y hy hyt
      unfold update_token_step
      rw [if_pos hsome]
      have hfy : (fun t : FCMToken =>
          if t.token == r.token then
            if r.success then
              { t with successful_sends := t.successful_sends + 1, last_active := now }
            else
              { t with failed_sends := t.failed_sends + 1,
                       is_active := if r.error_code == "UNREGISTERED"
                                       || r.error_code == "INVALID_ARGUMENT"
                                    then false else t.is_active }
          else t) y = y := by
        simp [hyt]
      exact hfy ▸ List.mem_map_of_mem _ hy

/-- Claim C7: once every record stored under an identifier is inactive, no
sequence of registry operations that does not explicitly register that same
identifier ever sets such a record active again: after any run of
`recordResults`, unregister, broadcast, register of other identifiers,
`listActive` or `stats` calls, a record stored under the identifier (if
still present) is still inactive. -/
theorem inactive_never_reactivated (m : TokenManager) (t : String) (ops : List Op)
    (hinact : ∀ r ∈ m.tokens, r.token = t → r.is_active = false)
    (hops : ∀ op ∈ ops, op.registersId t = false) :
    ∀ r ∈ (ops.foldl stepOp m).tokens, r.token = t → r.is_active = false := by
  induction ops generalizing m with
  | nil => simpa using hinact
  | cons op ops ih =>
    rw [List.foldl_cons]
    exact ih (stepOp m op)
      (stepOp_preserves_inactive m t op hinact (hops op (by simp)))
      (fun o ho => hops o (by simp [ho]))

theorem inactive_never_reactivated_witness :
    FCMToken.is_active (FCMToken.mk "a" 0 5 2 2 false) = false :=
  inactive_never_reactivated
    (TokenManager.mk [FCMToken.mk "a" 0 0 1 2 false, FCMToken.mk "b" 0 0 0 0 true] 10)
    "a"
    [Op.recordResults [SendResult.mk true "a" ""] 5, Op.unregister "b",
     Op.register (.str "c") 6, Op.listActive, Op.stats]
    (by decide) (by decide)
    (FCMToken.mk "a" 0 5 2 2 false) (by decide) (by decide)
